import Mathlib

/-!
Verification of the habitat supervisor core (`components/sup/src/manager/mod.rs`)
and the builder-scheduler dispatcher (`components/builder-scheduler/src/server/handlers.rs`)
against their natural-language specification.

The Rust code is shallowly embedded: the lock file is a single optional
character-list (file contents), process liveness is an explicit predicate,
machine integers are `Nat` with explicit bounds, and fallible operations
return `Except`.
-/

/- ### Error taxonomy (src/components/sup/src/manager/mod.rs uses `error::Error`
wrapped in `SupError`; the embedding flattens the wrapper). The `ProcessLockIO`
variant carries a path and an io error in the source; neither influences
control flow, so the embedding drops the payload. -/

/-- A four-part package identifier `origin/name[/version[/release]]`. -/
structure PackageIdent where
  origin : String
  name : String
  version : Option String
  release : Option String
deriving DecidableEq

/-- The supervisor error kinds relevant to the verified claims
(`Error::ProcessLocked`, `Error::ProcessLockCorrupt`, `Error::ProcessLockIO`,
`Error::ServiceNotLoaded`). -/
inductive SupError where
  | ProcessLocked (pid : Nat)
  | ProcessLockCorrupt
  | ProcessLockIO
  | ServiceNotLoaded (ident : PackageIdent)
deriving DecidableEq

/-- Propositional equality on `Except` is decidable componentwise (used to
evaluate the embedded fallible operations on concrete inputs). -/
instance {ε α : Type} [DecidableEq ε] [DecidableEq α] : DecidableEq (Except ε α) := fun x y =>
  match x, y with
  | Except.ok a, Except.ok b =>
    if h : a = b then isTrue (by rw [h]) else isFalse (by intro hc; cases hc; exact h rfl)
  | Except.ok _, Except.error _ => isFalse (by intro hc; cases hc)
  | Except.error _, Except.ok _ => isFalse (by intro hc; cases hc)
  | Except.error a, Except.error b =>
    if h : a = b then isTrue (by rw [h]) else isFalse (by intro hc; cases hc; exact h rfl)

/- ### ProcessLock (mod.rs lines 805-870)

The LOCK file is modelled as `Option (List Char)`: `none` when the file does
not exist, `some contents` otherwise. `process::is_alive` and
`process::current_pid` are external (hcore), passed as a predicate and a
number. -/

/-- The contents of the LOCK file: `none` = file absent. -/
abbrev LockFile := Option (List Char)

/-- The decimal digit character for `d` (`'0'` .. `'9'` when `d < 10`). -/
def decChar (d : Nat) : Char := Char.ofNat (48 + d)

/-- Decimal rendering of a natural number, as `write!(file, "{}", pid)`
produces it: most-significant digit first, no sign, no newline. -/
def natToChars (n : Nat) : List Char :=
  if n = 0 then ['0'] else ((Nat.digits 10 n).map decChar).reverse

/-- The numeric value of a decimal digit character, `none` for a non-digit
(used by the embedding of `str::parse::<u32>`). -/
def digitVal (c : Char) : Option Nat :=
  if c.isDigit then some (c.toNat - 48) else none

/-- Left-to-right accumulation of decimal digits, `none` on the first
non-digit character. -/
def parseDecCore : List Char → Nat → Option Nat
  | [], acc => some acc
  | c :: cs, acc =>
    match digitVal c with
    | some d => parseDecCore cs (acc * 10 + d)
    | none => none

/-- Embedding of Rust's `line.parse::<u32>()`: all characters must be decimal
digits, the string must be non-empty, and the value must fit in a `u32`. -/
def parse_u32 (cs : List Char) : Option Nat :=
  match cs with
  | [] => none
  | _ :: _ =>
    match parseDecCore cs 0 with
    | some n => if n < 2 ^ 32 then some n else none
    | none => none

/-- Embedding of `reader.lines().next()`: no line for an empty file, else the
contents up to (excluding) the first newline. -/
def first_line (contents : List Char) : Option (List Char) :=
  match contents with
  | [] => none
  | _ :: _ => some (contents.takeWhile (fun c => c != '\n'))

/-- `write_process_lock` (mod.rs 853-870): exclusive create
(`OpenOptions::create_new`) fails with `ProcessLockIO` when the file exists;
otherwise the current PID is written in decimal. Returns the result together
with the new file state. -/
def write_process_lock (file : LockFile) (pid : Nat) : Except SupError Unit × LockFile :=
  match file with
  | some contents => (Except.error SupError.ProcessLockIO, some contents)
  | none => (Except.ok (), some (natToChars pid))

/-- `read_process_lock` (mod.rs 827-845): `ProcessLockIO` when the file cannot
be opened, `ProcessLockCorrupt` when there is no first line or it does not
parse as a `u32`, otherwise the recorded PID. -/
def read_process_lock (file : LockFile) : Except SupError Nat :=
  match file with
  | none => Except.error SupError.ProcessLockIO
  | some contents =>
    match first_line contents with
    | none => Except.error SupError.ProcessLockCorrupt
    | some line =>
      match parse_u32 line with
      | some pid => Except.ok pid
      | none => Except.error SupError.ProcessLockCorrupt

/-- `release_process_lock` (mod.rs 847-851): best-effort unlink of the LOCK
file (errors are only logged). -/
def release_process_lock (_file : LockFile) : LockFile := none

/-- `obtain_process_lock` (mod.rs 805-825): try an exclusive create; on
failure read the recorded PID; a live owner fails with `ProcessLocked`, a dead
owner or a corrupt file is released and the write is retried once; other read
errors propagate. -/
def obtain_process_lock (file : LockFile) (alive : Nat → Bool) (pid : Nat) :
    Except SupError Unit × LockFile :=
  match write_process_lock file pid with
  | (Except.ok _, file') => (Except.ok (), file')
  | (Except.error _, _) =>
    match read_process_lock file with
    | Except.ok lockPid =>
      if alive lockPid then
        (Except.error (SupError.ProcessLocked lockPid), file)
      else
        write_process_lock (release_process_lock file) pid
    | Except.error SupError.ProcessLockCorrupt =>
      write_process_lock (release_process_lock file) pid
    | Except.error e => (Except.error e, file)

/- ### Decimal round-trip lemmas -/

lemma digitVal_decChar {d : Nat} (h : d < 10) : digitVal (decChar d) = some d := by
  interval_cases d <;> decide

lemma decChar_ne_newline {d : Nat} (h : d < 10) : (decChar d != '\n') = true := by
  interval_cases d <;> decide

lemma parseDecCore_append (xs ys : List Char) (acc : Nat) :
    parseDecCore (xs ++ ys) acc =
      (parseDecCore xs acc).bind (fun a => parseDecCore ys a) := by
  induction xs generalizing acc with
  | nil => rfl
  | cons c cs ih =>
    simp only [List.cons_append, parseDecCore]
    cases digitVal c with
    | none => rfl
    | some d => exact ih _

lemma parseDecCore_digits (ds : List Nat) (h : ∀ d ∈ ds, d < 10) (acc : Nat) :
    parseDecCore ((ds.map decChar).reverse) acc =
      some (acc * 10 ^ ds.length + Nat.ofDigits 10 ds) := by
  induction ds generalizing acc with
  | nil => simp [parseDecCore]
  | cons d ds ih =>
    have hd : d < 10 := h d (List.mem_cons_self d ds)
    have hds : ∀ x ∈ ds, x < 10 := fun x hx => h x (List.mem_cons_of_mem d hx)
    simp only [List.map_cons, List.reverse_cons, parseDecCore_append, ih hds]
    have hstep : ((some (acc * 10 ^ ds.length + Nat.ofDigits 10 ds)).bind
        (fun a => parseDecCore [decChar d] a)) =
        parseDecCore [decChar d] (acc * 10 ^ ds.length + Nat.ofDigits 10 ds) := rfl
    rw [hstep]
    simp only [parseDecCore, digitVal_decChar hd]
    rw [Nat.ofDigits_cons]
    simp only [Nat.cast_id, List.length_cons, Option.some.injEq]
    ring

lemma takeWhile_eq_self_of_forall {p : Char → Bool} {l : List Char}
    (h : ∀ c ∈ l, p c = true) : l.takeWhile p = l := by
  induction l with
  | nil => rfl
  | cons c cs ih =>
    simp only [List.takeWhile_cons, h c (List.mem_cons_self c cs)]
    exact congrArg (c :: ·) (ih fun x hx => h x (List.mem_cons_of_mem c hx))

lemma natToChars_digit {n : Nat} {c : Char} (hc : c ∈ natToChars n) :
    ∃ d, d < 10 ∧ c = decChar d := by
  unfold natToChars at hc
  by_cases h0 : n = 0
  · rw [if_pos h0] at hc
    exact ⟨0, by norm_num, by simpa using hc⟩
  · rw [if_neg h0] at hc
    rw [List.mem_reverse, List.mem_map] at hc
    obtain ⟨d, hd, rfl⟩ := hc
    exact ⟨d, Nat.digits_lt_base (by norm_num) hd, rfl⟩

lemma natToChars_ne_nil (n : Nat) : natToChars n ≠ [] := by
  unfold natToChars
  by_cases h0 : n = 0
  · rw [if_pos h0]; simp
  · rw [if_neg h0]
    simp [Nat.digits_ne_nil_iff_ne_zero.mpr h0]

lemma first_line_of_ne_nil {cs : List Char} (h : cs ≠ []) :
    first_line cs = some (cs.takeWhile (fun c => c != '\n')) := by
  cases cs with
  | nil => exact absurd rfl h
  | cons c cs => rfl

lemma parse_u32_of_ne_nil {cs : List Char} (h : cs ≠ []) :
    parse_u32 cs =
      (match parseDecCore cs 0 with
       | some n => if n < 2 ^ 32 then some n else none
       | none => none) := by
  cases cs with
  | nil => exact absurd rfl h
  | cons c cs => rfl

lemma first_line_natToChars (n : Nat) : first_line (natToChars n) = some (natToChars n) := by
  have hall : ∀ c ∈ natToChars n, (c != '\n') = true := by
    intro c hc
    obtain ⟨d, hd, rfl⟩ := natToChars_digit hc
    exact decChar_ne_newline hd
  rw [first_line_of_ne_nil (natToChars_ne_nil n), takeWhile_eq_self_of_forall hall]

lemma parse_u32_natToChars {n : Nat} (h : n < 2 ^ 32) : parse_u32 (natToChars n) = some n := by
  by_cases h0 : n = 0
  · subst h0; decide
  · have hd : ∀ d ∈ Nat.digits 10 n, d < 10 :=
      fun d hd => Nat.digits_lt_base (by norm_num) hd
    have hcore : parseDecCore (((Nat.digits 10 n).map decChar).reverse) 0 = some n := by
      rw [parseDecCore_digits (Nat.digits 10 n) hd 0]
      simp [Nat.ofDigits_digits]
    have hnc : natToChars n = ((Nat.digits 10 n).map decChar).reverse := by
      unfold natToChars; rw [if_neg h0]
    rw [parse_u32_of_ne_nil (natToChars_ne_nil n), hnc, hcore]
    simp
    omega

/-- C1: when `obtain_process_lock` cannot exclusively create the LOCK file
(the file exists), it reads the recorded PID: a live owner fails with
`ProcessLocked(pid)`; a dead owner, or an unparsable file
(`ProcessLockCorrupt`), is deleted and the acquisition retried once by
writing the current PID. -/
theorem obtain_process_lock_contended (contents : List Char) (alive : Nat → Bool)
    (pid q : Nat) :
    (read_process_lock (some contents) = Except.ok q → alive q = true →
      obtain_process_lock (some contents) alive pid =
        (Except.error (SupError.ProcessLocked q), some contents))
  ∧ (read_process_lock (some contents) = Except.ok q → alive q = false →
      obtain_process_lock (some contents) alive pid =
        (Except.ok (), some (natToChars pid)))
  ∧ (read_process_lock (some contents) = Except.error SupError.ProcessLockCorrupt →
      obtain_process_lock (some contents) alive pid =
        (Except.ok (), some (natToChars pid))) := by
  refine ⟨?_, ?_, ?_⟩
  · intro hread halive
    simp [obtain_process_lock, write_process_lock, hread, halive]
  · intro hread halive
    simp [obtain_process_lock, write_process_lock, hread, halive,
      release_process_lock]
  · intro hread
    simp [obtain_process_lock, write_process_lock, hread, release_process_lock]

/-- Witness for C1: all three contended branches at concrete inputs (file
holding "42" with PID 42 alive, then dead, then a corrupt file "x"). -/
theorem obtain_process_lock_contended_witness :
    (obtain_process_lock (some ['4', '2']) (fun _ => true) 7 =
      (Except.error (SupError.ProcessLocked 42), some ['4', '2']))
  ∧ (obtain_process_lock (some ['4', '2']) (fun _ => false) 7 =
      (Except.ok (), some (natToChars 7)))
  ∧ (obtain_process_lock (some ['x']) (fun _ => true) 7 =
      (Except.ok (), some (natToChars 7))) :=
  ⟨(obtain_process_lock_contended ['4', '2'] (fun _ => true) 7 42).1 (by decide) rfl,
   (obtain_process_lock_contended ['4', '2'] (fun _ => false) 7 42).2.1 (by decide) rfl,
   (obtain_process_lock_contended ['x'] (fun _ => true) 7 0).2.2 (by decide)⟩

/-- C2: after `write_process_lock` succeeds on a path, `read_process_lock` on
that path returns the current process's PID; after `release_process_lock`
removes the file, `read_process_lock` fails with `ProcessLockIO`
(file not found). -/
theorem process_lock_write_read_roundtrip (pid : Nat) (h : pid < 2 ^ 32) :
    write_process_lock none pid = (Except.ok (), some (natToChars pid))
  ∧ read_process_lock (some (natToChars pid)) = Except.ok pid
  ∧ read_process_lock (release_process_lock (some (natToChars pid))) =
      Except.error SupError.ProcessLockIO := by
  refine ⟨rfl, ?_, rfl⟩
  simp only [read_process_lock, first_line_natToChars, parse_u32_natToChars h]

/-- Witness for C2 at PID 31415. -/
theorem process_lock_write_read_roundtrip_witness :
    write_process_lock none 31415 = (Except.ok (), some (natToChars 31415))
  ∧ read_process_lock (some (natToChars 31415)) = Except.ok 31415
  ∧ read_process_lock (release_process_lock (some (natToChars 31415))) =
      Except.error SupError.ProcessLockIO :=
  process_lock_write_read_roundtrip 31415 (by norm_num)

/- ### Service specs and the spec watcher event stream (mod.rs 732-787)

`ServiceSpec`, `Service` and `SpecWatcherEvent` live in the `manager::service`
and `manager::spec_watcher` modules, which are not part of the provided
sources; their shape is modelled from the spec (section 3, DATA MODEL). -/

/-- Modelled from the spec: `desired_state ∈ {Up, Down}` of a ServiceSpec. -/
inductive DesiredState where
  | Up
  | Down
deriving DecidableEq

/-- Modelled from the spec: `start_style ∈ {Persistent, Transient}`. -/
inductive StartStyle where
  | Persistent
  | Transient
deriving DecidableEq

/-- Modelled from the spec: `topology ∈ {Standalone, Leader}`. -/
inductive Topology where
  | Standalone
  | Leader
deriving DecidableEq

/-- Modelled from the spec: a persisted ServiceSpec; only the fields the
manager's reconciliation reads are kept (binds and config overrides are
opaque to mod.rs). -/
structure ServiceSpec where
  ident : PackageIdent
  group : String
  topology : Topology
  desired_state : DesiredState
  start_style : StartStyle
deriving DecidableEq

/-- Modelled from the spec: a running `Service`; the fields mod.rs reads are
its spec ident (`remove_service_for_spec`), service group and suitability
(`SuitabilityLookup`), and start style (`remove_service`). -/
structure Service where
  spec_ident : PackageIdent
  service_group : String
  suitability : Option Nat
  start_style : StartStyle
deriving DecidableEq

/-- `SpecWatcherEvent` (manager::spec_watcher, modelled from the spec):
add/remove events diffed from the `specs/` directory. -/
inductive SpecWatcherEvent where
  | AddService (spec : ServiceSpec)
  | RemoveService (spec : ServiceSpec)
deriving DecidableEq

/-- Observable side effects of the manager's reconciliation: a call to
`Manager::add_service`, a `service.stop()` inside `Manager::remove_service`,
and the transient spec-file cleanup there. -/
inductive ManagerAction where
  | addService (spec : ServiceSpec)
  | stopService (s : Service)
  | removeSpecFile (s : Service)
deriving DecidableEq

/-- `Manager::remove_service` (mod.rs 397-408): stop the service and, for a
transient one, remove its spec file. Modelled as the list of effects. -/
def remove_service (s : Service) : List ManagerAction :=
  ManagerAction.stopService s ::
    (if s.start_style = StartStyle.Transient then [ManagerAction.removeSpecFile s] else [])

/-- `Manager::remove_service_for_spec` (mod.rs 768-787): find the position of
the first running service whose `spec_ident` equals the spec's ident, remove
it from the vector and run `remove_service` on it; when none is found the
event is skipped with a log line. -/
def remove_service_for_spec : List Service → ServiceSpec → List Service × List ManagerAction
  | [], _ => ([], [])
  | s :: rest, spec =>
    if s.spec_ident = spec.ident then
      (rest, remove_service s)
    else
      let step := remove_service_for_spec rest spec
      (s :: step.1, step.2)

/-- One event of `Manager::start_initial_services_from_watcher`
(mod.rs 732-744): `AddService` with `desired_state = Up` calls `add_service`
(the loaded service is pushed onto the vector); anything else is skipped with
a warning. -/
def start_initial_step (load : ServiceSpec → Service)
    (acc : List Service × List ManagerAction) (ev : SpecWatcherEvent) :
    List Service × List ManagerAction :=
  match ev with
  | SpecWatcherEvent.AddService spec =>
    if spec.desired_state = DesiredState.Up then
      (acc.1 ++ [load spec], acc.2 ++ [ManagerAction.addService spec])
    else acc
  | SpecWatcherEvent.RemoveService _ => acc

/-- `Manager::start_initial_services_from_watcher` (mod.rs 732-744) over the
initial event list. `Service::load` is external to mod.rs and passed as a
function. -/
def start_initial_services_from_watcher (load : ServiceSpec → Service)
    (services : List Service) (events : List SpecWatcherEvent) :
    List Service × List ManagerAction :=
  events.foldl (start_initial_step load) (services, [])

/-- One event of `Manager::update_running_services_from_watcher`
(mod.rs 746-766): `AddService` with `desired_state = Up` calls `add_service`;
`AddService` with `Down` does nothing; `RemoveService` runs
`remove_service_for_spec`. -/
def update_running_step (load : ServiceSpec → Service)
    (acc : List Service × List ManagerAction) (ev : SpecWatcherEvent) :
    List Service × List ManagerAction :=
  match ev with
  | SpecWatcherEvent.AddService spec =>
    if spec.desired_state = DesiredState.Up then
      (acc.1 ++ [load spec], acc.2 ++ [ManagerAction.addService spec])
    else acc
  | SpecWatcherEvent.RemoveService spec =>
    let step := remove_service_for_spec acc.1 spec
    (step.1, acc.2 ++ step.2)

/-- `Manager::update_running_services_from_watcher` (mod.rs 746-766) over one
tick's event list. -/
def update_running_services_from_watcher (load : ServiceSpec → Service)
    (services : List Service) (events : List SpecWatcherEvent) :
    List Service × List ManagerAction :=
  events.foldl (update_running_step load) (services, [])

lemma remove_service_for_spec_no_add (services : List Service) (spec sp : ServiceSpec) :
    ManagerAction.addService sp ∉ (remove_service_for_spec services spec).2 := by
  induction services with
  | nil => simp [remove_service_for_spec]
  | cons s rest ih =>
    by_cases h : s.spec_ident = spec.ident
    · simp only [remove_service_for_spec, if_pos h, remove_service]
      by_cases ht : s.start_style = StartStyle.Transient <;> simp [ht]
    · simpa only [remove_service_for_spec, if_neg h] using ih

lemma mem_trace_start_initial (load : ServiceSpec → Service)
    (events : List SpecWatcherEvent) (acc : List Service × List ManagerAction)
    (sp : ServiceSpec) :
    ManagerAction.addService sp ∈ (events.foldl (start_initial_step load) acc).2 ↔
      (ManagerAction.addService sp ∈ acc.2 ∨
        (SpecWatcherEvent.AddService sp ∈ events ∧ sp.desired_state = DesiredState.Up)) := by
  induction events generalizing acc with
  | nil => simp
  | cons ev evs ih =>
    rw [List.foldl_cons, ih]
    cases ev with
    | AddService spec =>
      by_cases hsp : sp = spec
      · subst hsp
        by_cases h : sp.desired_state = DesiredState.Up <;>
          simp [start_initial_step, h]
      · by_cases h : spec.desired_state = DesiredState.Up <;>
          simp [start_initial_step, h, hsp]
    | RemoveService spec =>
      simp [start_initial_step]

lemma mem_trace_update_running (load : ServiceSpec → Service)
    (events : List SpecWatcherEvent) (acc : List Service × List ManagerAction)
    (sp : ServiceSpec) :
    ManagerAction.addService sp ∈ (events.foldl (update_running_step load) acc).2 ↔
      (ManagerAction.addService sp ∈ acc.2 ∨
        (SpecWatcherEvent.AddService sp ∈ events ∧ sp.desired_state = DesiredState.Up)) := by
  induction events generalizing acc with
  | nil => simp
  | cons ev evs ih =>
    rw [List.foldl_cons, ih]
    cases ev with
    | AddService spec =>
      by_cases hsp : sp = spec
      · subst hsp
        by_cases h : sp.desired_state = DesiredState.Up <;>
          simp [update_running_step, h]
      · by_cases h : spec.desired_state = DesiredState.Up <;>
          simp [update_running_step, h, hsp]
    | RemoveService spec =>
      simp [update_running_step, remove_service_for_spec_no_add acc.1 spec sp]

lemma filter_eq_self_of_no_match {spec : ServiceSpec} {l : List Service}
    (h : ∀ t ∈ l, t.spec_ident ≠ spec.ident) :
    l.filter (fun t => t.spec_ident != spec.ident) = l := by
  induction l with
  | nil => rfl
  | cons s rest ih =>
    have hs : (s.spec_ident != spec.ident) = true := by
      simpa using h s (List.mem_cons_self s rest)
    rw [List.filter_cons, if_pos hs]
    exact congrArg (s :: ·) (ih fun t ht => h t (List.mem_cons_of_mem s ht))

lemma remove_service_for_spec_nodup (services : List Service) (spec : ServiceSpec)
    (hnd : (services.map Service.spec_ident).Nodup) :
    (remove_service_for_spec services spec).1 =
      services.filter (fun s => s.spec_ident != spec.ident)
  ∧ (∀ s ∈ services, s.spec_ident = spec.ident →
      (remove_service_for_spec services spec).2 = remove_service s) := by
  induction services with
  | nil => exact ⟨rfl, by intro s hs; cases hs⟩
  | cons s rest ih =>
    rw [List.map_cons, List.nodup_cons] at hnd
    obtain ⟨hnotin, hndrest⟩ := hnd
    by_cases h : s.spec_ident = spec.ident
    · have hrest : ∀ t ∈ rest, t.spec_ident ≠ spec.ident := by
        intro t ht hc
        apply hnotin
        rw [h, ← hc]
        exact List.mem_map_of_mem Service.spec_ident ht
      constructor
      · rw [remove_service_for_spec, if_pos h, List.filter_cons,
          if_neg (by simp [h]), filter_eq_self_of_no_match hrest]
      · intro t ht hteq
        rcases List.mem_cons.mp ht with rfl | ht
        · rw [remove_service_for_spec, if_pos h]
        · exact absurd hteq (hrest t ht)
    · obtain ⟨ih1, ih2⟩ := ih hndrest
      constructor
      · rw [remove_service_for_spec, if_neg h, List.filter_cons, if_pos (by simp [h])]
        exact congrArg (s :: ·) ih1
      · intro t ht hteq
        rcases List.mem_cons.mp ht with rfl | ht
        · exact absurd hteq h
        · rw [remove_service_for_spec, if_neg h]
          exact ih2 t ht hteq

/-- C4: during spec reconciliation — both the initial boot pass and a tick's
`new_events` pass — an `AddService` event calls `add_service` exactly when the
spec's `desired_state` is `Up`; a `RemoveService` event removes the matching
running service from the vector (leaving the rest, so a spec that is gone or
marked `Down` leaves no running service for its ident) and stops it. -/
theorem spec_reconciliation_add_remove (load : ServiceSpec → Service)
    (services : List Service) (events : List SpecWatcherEvent) (spec : ServiceSpec) :
    (ManagerAction.addService spec ∈
        (start_initial_services_from_watcher load services events).2 ↔
      (SpecWatcherEvent.AddService spec ∈ events ∧
        spec.desired_state = DesiredState.Up))
  ∧ (ManagerAction.addService spec ∈
        (update_running_services_from_watcher load services events).2 ↔
      (SpecWatcherEvent.AddService spec ∈ events ∧
        spec.desired_state = DesiredState.Up))
  ∧ ((services.map Service.spec_ident).Nodup →
      (remove_service_for_spec services spec).1 =
        services.filter (fun s => s.spec_ident != spec.ident)
      ∧ (∀ s ∈ services, s.spec_ident = spec.ident →
          (remove_service_for_spec services spec).2 = remove_service s)) := by
  refine ⟨?_, ?_, fun hnd => remove_service_for_spec_nodup services spec hnd⟩
  · rw [start_initial_services_from_watcher,
      mem_trace_start_initial load events (services, []) spec]
    simp
  · rw [update_running_services_from_watcher,
      mem_trace_update_running load events (services, []) spec]
    simp

/- ### Sample fixtures used by the concrete witnesses. -/

/-- Sample ident `core/redis`. -/
def sampleIdentA : PackageIdent :=
  { origin := "core", name := "redis", version := none, release := none }

/-- Sample ident `core/pg`. -/
def sampleIdentB : PackageIdent :=
  { origin := "core", name := "pg", version := none, release := none }

/-- Sample spec for `core/redis` with `desired_state = Up`. -/
def sampleSpecA : ServiceSpec :=
  { ident := sampleIdentA, group := "default", topology := Topology.Standalone,
    desired_state := DesiredState.Up, start_style := StartStyle.Persistent }

/-- Sample spec for `core/pg` with `desired_state = Down`. -/
def sampleSpecDown : ServiceSpec :=
  { ident := sampleIdentB, group := "default", topology := Topology.Leader,
    desired_state := DesiredState.Down, start_style := StartStyle.Persistent }

/-- Sample running service for `core/redis`. -/
def sampleServiceA : Service :=
  { spec_ident := sampleIdentA, service_group := "redis.default",
    suitability := none, start_style := StartStyle.Persistent }

/-- Sample running service for `core/pg`. -/
def sampleServiceB : Service :=
  { spec_ident := sampleIdentB, service_group := "pg.default",
    suitability := some 3, start_style := StartStyle.Transient }

/-- A sample `Service::load` used to instantiate the reconciliation theorems. -/
def sampleLoad (spec : ServiceSpec) : Service :=
  { spec_ident := spec.ident, service_group := spec.ident.name ++ "." ++ spec.group,
    suitability := none, start_style := spec.start_style }

/-- Witness for C4: removing `core/redis` from a two-service vector keeps only
`core/pg` and stops the removed service; an `Up` add-event is applied, a
`Down` one is not. -/
theorem spec_reconciliation_add_remove_witness :
    (remove_service_for_spec [sampleServiceA, sampleServiceB] sampleSpecA).1 =
      [sampleServiceB]
  ∧ (remove_service_for_spec [sampleServiceA, sampleServiceB] sampleSpecA).2 =
      remove_service sampleServiceA
  ∧ ManagerAction.addService sampleSpecA ∈
      (update_running_services_from_watcher sampleLoad []
        [SpecWatcherEvent.AddService sampleSpecA]).2
  ∧ ManagerAction.addService sampleSpecDown ∉
      (start_initial_services_from_watcher sampleLoad []
        [SpecWatcherEvent.AddService sampleSpecDown]).2 := by
  refine ⟨?_, ?_, ?_, ?_⟩
  · have h := (spec_reconciliation_add_remove sampleLoad [sampleServiceA, sampleServiceB]
      [] sampleSpecA).2.2 (by decide)
    rw [h.1]
    decide
  · have h := (spec_reconciliation_add_remove sampleLoad [sampleServiceA, sampleServiceB]
      [] sampleSpecA).2.2 (by decide)
    exact h.2 sampleServiceA (by decide) (by decide)
  · exact ((spec_reconciliation_add_remove sampleLoad []
      [SpecWatcherEvent.AddService sampleSpecA] sampleSpecA).2.1).mpr
      ⟨by decide, by decide⟩
  · intro hmem
    have h := ((spec_reconciliation_add_remove sampleLoad []
      [SpecWatcherEvent.AddService sampleSpecDown] sampleSpecDown).1).mp hmem
    exact absurd h.2 (by decide)

/- ### SuitabilityLookup (mod.rs 790-803) -/

/-- `Suitability::get` for `SuitabilityLookup` (mod.rs 790-803): the first
service whose `service_group` equals the queried group contributes its
suitability; `and_then`/`unwrap_or` turn a missing service or a missing
suitability into `u64::min_value()` (0). -/
def SuitabilityLookup_get (services : List Service) (service_group : String) : Nat :=
  (((services.find? (fun s => s.service_group == service_group)).bind
      Service.suitability).getD 0)

/-- C9: the suitability lookup returns the suitability of the first service
whose group equals the query when that service exists and reports one, and 0
(the `u64` minimum) in every other case — no matching service, or a matching
service without a suitability (`Option.getD 0` covers both readings at the
first match). -/
theorem suitability_lookup_first_match (services : List Service) (sg : String) :
    ((∀ s ∈ services, s.service_group ≠ sg) → SuitabilityLookup_get services sg = 0)
  ∧ (∀ k (hk : k < services.length),
      (services.get ⟨k, hk⟩).service_group = sg →
      (∀ j (hj : j < k), (services.get ⟨j, Nat.lt_trans hj hk⟩).service_group ≠ sg) →
      SuitabilityLookup_get services sg =
        ((services.get ⟨k, hk⟩).suitability).getD 0) := by
  constructor
  · intro hnone
    have hfind : services.find? (fun s => s.service_group == sg) = none := by
      rw [List.find?_eq_none]
      intro s hs
      simpa using hnone s hs
    rw [SuitabilityLookup_get, hfind]
    rfl
  · intro k hk hmatch hbefore
    induction services generalizing k with
    | nil => cases hk
    | cons s rest ih =>
      by_cases hs : s.service_group = sg
      · have hk0 : k = 0 := by
          by_contra hne
          exact hbefore 0 (Nat.pos_of_ne_zero hne) hs
        subst hk0
        simp only [List.get] at hmatch ⊢
        rw [SuitabilityLookup_get, List.find?_cons_of_pos _ (by simpa using hs)]
        rfl
      · rcases k with _ | k
        · exact absurd (by simpa using hmatch) hs
        · have hstep : SuitabilityLookup_get (s :: rest) sg =
              SuitabilityLookup_get rest sg := by
            rw [SuitabilityLookup_get, SuitabilityLookup_get,
              List.find?_cons_of_neg _ (by simpa using hs)]
          rw [hstep]
          exact ih k (Nat.lt_of_succ_lt_succ hk) hmatch
            (fun j hj => hbefore (j + 1) (Nat.succ_lt_succ hj))

/-- Witness for C9: the first matching service (`pg.default`, suitability 3)
wins, and an unmatched group yields 0. -/
theorem suitability_lookup_first_match_witness :
    SuitabilityLookup_get [sampleServiceA, sampleServiceB] "pg.default" = 3
  ∧ SuitabilityLookup_get [sampleServiceA, sampleServiceB] "mysql.default" = 0
  ∧ SuitabilityLookup_get [sampleServiceA, sampleServiceB] "redis.default" = 0 := by
  refine ⟨?_, ?_, ?_⟩
  · have h := (suitability_lookup_first_match [sampleServiceA, sampleServiceB]
      "pg.default").2 1 (by decide) (by decide)
      (fun j hj => by
        have hj0 : j = 0 := by omega
        subst hj0
        show sampleServiceA.service_group ≠ "pg.default"
        decide)
    rw [h]
    decide
  · exact (suitability_lookup_first_match [sampleServiceA, sampleServiceB]
      "mysql.default").1 (fun s hs => by
        rcases List.mem_cons.mp hs with rfl | hs
        · decide
        · rcases List.mem_cons.mp hs with rfl | hs
          · decide
          · cases hs)
  · have h := (suitability_lookup_first_match [sampleServiceA, sampleServiceB]
      "redis.default").2 0 (by decide) (by decide) (fun j hj => by omega)
    rw [h]
    decide

/- ### State path resolution (mod.rs 364-374)

Paths are embedded as lists of components. `FS_ROOT_PATH` is an external
hcore constant. -/

/-- Modelled from the spec: `FS_ROOT_PATH` is the process-wide filesystem
root (external, from hcore); embedded as the empty component list. -/
def FS_ROOT_PATH : List String := []

/-- `STATE_PATH_PREFIX` (mod.rs 68-73): `FS_ROOT_PATH` joined with
`hab/sup`. -/
def STATE_PATH_PREFIX : List String := FS_ROOT_PATH ++ ["hab", "sup"]

/-- `ManagerConfig` (mod.rs 155-165); the socket-address fields are not
representable and not read by `state_path_from`, so they are omitted. -/
structure ManagerConfig where
  gossip_permanent : Bool
  ring : Option String
  name : Option String
  custom_state_path : Option (List String)
  organization : Option String
deriving DecidableEq

/-- `Manager::state_path_from` (mod.rs 364-374). -/
def state_path_from (cfg : ManagerConfig) : List String :=
  match cfg.custom_state_path with
  | some custom => custom
  | none =>
    match cfg.name with
    | some name => STATE_PATH_PREFIX ++ [name]
    | none => STATE_PATH_PREFIX ++ ["default"]

/-- C7: `state_path_from` depends only on `custom_state_path` and `name`
(deterministic in the config), and obeys the precedence custom path over
`STATE_PATH_PREFIX/<name>` over `STATE_PATH_PREFIX/default`. -/
theorem state_path_from_precedence (cfg cfg' : ManagerConfig) :
    (cfg.custom_state_path = cfg'.custom_state_path → cfg.name = cfg'.name →
      state_path_from cfg = state_path_from cfg')
  ∧ (∀ p, cfg.custom_state_path = some p → state_path_from cfg = p)
  ∧ (∀ n, cfg.custom_state_path = none → cfg.name = some n →
      state_path_from cfg = STATE_PATH_PREFIX ++ [n])
  ∧ (cfg.custom_state_path = none → cfg.name = none →
      state_path_from cfg = STATE_PATH_PREFIX ++ ["default"]) := by
  refine ⟨?_, ?_, ?_, ?_⟩
  · intro hc hn
    rw [state_path_from, state_path_from, hc, hn]
  · intro p hp
    rw [state_path_from, hp]
  · intro n hc hn
    rw [state_path_from, hc, hn]
  · intro hc hn
    rw [state_path_from, hc, hn]

/-- Sample config with a custom state path (and a name, which must lose). -/
def sampleCfgCustom : ManagerConfig :=
  { gossip_permanent := false, ring := none, name := some "nope",
    custom_state_path := some ["tmp", "partay"], organization := none }

/-- Sample config with only a name. -/
def sampleCfgNamed : ManagerConfig :=
  { gossip_permanent := false, ring := none, name := some "peanuts",
    custom_state_path := none, organization := none }

/-- Sample default config. -/
def sampleCfgDefault : ManagerConfig :=
  { gossip_permanent := false, ring := none, name := none,
    custom_state_path := none, organization := none }

/-- Witness for C7: precedence at concrete configs (mirrors the unit tests
`manager_state_path_*` in mod.rs). -/
theorem state_path_from_precedence_witness :
    state_path_from sampleCfgCustom = ["tmp", "partay"]
  ∧ state_path_from sampleCfgNamed = STATE_PATH_PREFIX ++ ["peanuts"]
  ∧ state_path_from sampleCfgDefault = STATE_PATH_PREFIX ++ ["default"] :=
  ⟨(state_path_from_precedence sampleCfgCustom sampleCfgCustom).2.1
      ["tmp", "partay"] rfl,
   (state_path_from_precedence sampleCfgNamed sampleCfgNamed).2.2.1
      "peanuts" rfl rfl,
   (state_path_from_precedence sampleCfgDefault sampleCfgDefault).2.2.2 rfl rfl⟩

/- ### StatusReader: service_status (mod.rs 210-220)

`PackageIdent::satisfies` comes from hcore (not under the provided sources). -/

/-- Modelled from the spec: hcore's `Identifiable::satisfies` — a concrete
package satisfies a (possibly partial) query ident when origin and name agree
and every version/release component the query specifies agrees. -/
def PackageIdent.satisfies (p q : PackageIdent) : Bool :=
  p.origin == q.origin && p.name == q.name &&
    (match q.version with
     | none => true
     | some v => p.version == some v) &&
    (match q.release with
     | none => true
     | some r => p.release == some r)

/-- Process state of a supervised service (`ProcessState`). -/
inductive ProcessState where
  | Down
  | Up
  | Restarting
deriving DecidableEq

/-- `SupervisorStatus` (mod.rs 82-91); `elapsed` is kept as the raw
`state_entered` seconds. -/
structure SupervisorStatus where
  pid : Option Nat
  state_entered : Nat
  state : ProcessState
deriving DecidableEq

/-- `ServiceStatus` (mod.rs 75-80): one entry of the persisted
`services.dat` list. -/
structure ServiceStatus where
  package : PackageIdent
  supervisor : SupervisorStatus
deriving DecidableEq

/-- `Manager::service_status` (mod.rs 210-220) applied to the deserialized
status list: the for-loop returns the first entry whose package satisfies the
query ident, else `ServiceNotLoaded(ident)`. -/
def service_status : List ServiceStatus → PackageIdent → Except SupError ServiceStatus
  | [], ident => Except.error (SupError.ServiceNotLoaded ident)
  | st :: rest, ident =>
    if st.package.satisfies ident then Except.ok st else service_status rest ident

/-- C5: `service_status` returns the first entry of the persisted list whose
package satisfies the query ident, and fails with `ServiceNotLoaded(ident)`
when no entry satisfies it. -/
theorem service_status_first_match (statuses : List ServiceStatus) (ident : PackageIdent) :
    ((∀ st ∈ statuses, st.package.satisfies ident = false) →
      service_status statuses ident = Except.error (SupError.ServiceNotLoaded ident))
  ∧ (∀ k (hk : k < statuses.length),
      (statuses.get ⟨k, hk⟩).package.satisfies ident = true →
      (∀ j (hj : j < k), (statuses.get ⟨j, Nat.lt_trans hj hk⟩).package.satisfies ident = false) →
      service_status statuses ident = Except.ok (statuses.get ⟨k, hk⟩)) := by
  constructor
  · intro hnone
    induction statuses with
    | nil => rfl
    | cons st rest ih =>
      rw [service_status, if_neg (by simp [hnone st (List.mem_cons_self st rest)])]
      exact ih fun t ht => hnone t (List.mem_cons_of_mem st ht)
  · intro k hk hmatch hbefore
    induction statuses generalizing k with
    | nil => cases hk
    | cons st rest ih =>
      by_cases hs : st.package.satisfies ident = true
      · have hk0 : k = 0 := by
          by_contra hne
          exact absurd hs (by simpa using hbefore 0 (Nat.pos_of_ne_zero hne))
        subst hk0
        rw [service_status, if_pos hs]
        rfl
      · rcases k with _ | k
        · exact absurd hmatch hs
        · rw [service_status, if_neg (by simpa using hs)]
          exact ih k (Nat.lt_of_succ_lt_succ hk) hmatch
            (fun j hj => hbefore (j + 1) (Nat.succ_lt_succ hj))

/-- Sample full ident `core/redis/3.2.1/20170101000000`. -/
def sampleFullIdentA : PackageIdent :=
  { origin := "core", name := "redis", version := some "3.2.1",
    release := some "20170101000000" }

/-- Sample full ident `core/redis/3.2.1/20170202000000`. -/
def sampleFullIdentB : PackageIdent :=
  { origin := "core", name := "redis", version := some "3.2.1",
    release := some "20170202000000" }

/-- Sample persisted status entry for the C5 witness (first match). -/
def sampleStatusA : ServiceStatus :=
  { package := sampleFullIdentA,
    supervisor := { pid := some 4001, state_entered := 100, state := ProcessState.Up } }

/-- Second sample status entry (same package name, different release). -/
def sampleStatusB : ServiceStatus :=
  { package := sampleFullIdentB,
    supervisor := { pid := none, state_entered := 200, state := ProcessState.Down } }

/-- Witness for C5: the partial query `core/redis` is satisfied by the first
entry; a query for `core/pg` misses and reports `ServiceNotLoaded`. -/
theorem service_status_first_match_witness :
    service_status [sampleStatusA, sampleStatusB] sampleIdentA = Except.ok sampleStatusA
  ∧ service_status [sampleStatusA, sampleStatusB] sampleIdentB =
      Except.error (SupError.ServiceNotLoaded sampleIdentB) := by
  constructor
  · exact (service_status_first_match [sampleStatusA, sampleStatusB] sampleIdentA).2
      0 (by decide) (by decide) (fun j hj => by omega)
  · exact (service_status_first_match [sampleStatusA, sampleStatusB] sampleIdentB).1
      (fun st hst => by
        rcases List.mem_cons.mp hst with rfl | hst
        · decide
        · rcases List.mem_cons.mp hst with rfl | hst
          · decide
          · cases hst)

/- ### EventSink: payload framing and the sup-eventsrv worker (mod.rs 422-461)

Census entries arrive at the worker already protobuf-encoded
(`entry.write_to_bytes()` is the external protobuf crate); an encoded entry
is a byte list. Bytes are `Nat` values below 256. -/

/-- The envelope type enum of the external eventsrv protocol; the worker only
ever uses `ProtoBuf`. -/
inductive EventEnvelope_Type where
  | ProtoBuf
  | JSON
deriving DecidableEq

/-- `EventEnvelope` of the external eventsrv protocol: the fields the worker
sets (mod.rs 450-454). -/
structure EventEnvelope where
  field_type : EventEnvelope_Type
  payload : List Nat
  member_id : String
  service : String
deriving DecidableEq

/-- `LittleEndian::write_u64` into an 8-byte buffer (mod.rs 443-445): byte `i`
is `n / 256^i % 256`, so values at or above `2^64` wrap. -/
def write_u64_le (n : Nat) : List Nat :=
  (List.range 8).map (fun i => n / 256 ^ i % 256)

/-- The `payload_buf` loop (mod.rs 440-448): for each encoded census entry,
append the 8-byte little-endian length and then the bytes themselves. -/
def build_event_payload (entries : List (List Nat)) : List Nat :=
  entries.foldl (fun payload_buf bytes =>
    payload_buf ++ write_u64_le bytes.length ++ bytes) []

/-- The envelope construction (mod.rs 450-454): type `ProtoBuf`, the framed
payload, the local member id, service `"habitat-sup"`. -/
def build_event_envelope (member_id : String) (entries : List (List Nat)) :
    EventEnvelope :=
  { field_type := EventEnvelope_Type.ProtoBuf,
    payload := build_event_payload entries,
    member_id := member_id,
    service := "habitat-sup" }

/-- Little-endian byte-list value: `bs[0] + 256*bs[1] + ...`. -/
def ofBytesLE (bs : List Nat) : Nat :=
  bs.foldr (fun b acc => b + 256 * acc) 0

lemma build_event_payload_loop (entries : List (List Nat)) (acc : List Nat) :
    entries.foldl (fun payload_buf bytes =>
        payload_buf ++ write_u64_le bytes.length ++ bytes) acc =
      acc ++ (entries.map (fun bytes => write_u64_le bytes.length ++ bytes)).flatten := by
  induction entries generalizing acc with
  | nil => simp
  | cons e es ih =>
    rw [List.foldl_cons, ih, List.map_cons, List.flatten_cons]
    simp [List.append_assoc]

lemma ofBytesLE_le_chunks (k n : Nat) :
    ofBytesLE ((List.range k).map (fun i => n / 256 ^ i % 256)) = n % 256 ^ k := by
  induction k generalizing n with
  | zero => simp [ofBytesLE, Nat.mod_one]
  | succ k ih =>
    rw [List.range_succ_eq_map, List.map_cons, List.map_map]
    have hcomp : ((fun i => n / 256 ^ i % 256) ∘ Nat.succ) =
        (fun i => (n / 256) / 256 ^ i % 256) := by
      funext i
      simp [Nat.pow_succ, Nat.div_div_eq_div_mul, Nat.mul_comm]
    rw [hcomp]
    have hstep : ofBytesLE ((n / 256 ^ 0 % 256) ::
        ((List.range k).map (fun i => (n / 256) / 256 ^ i % 256))) =
        n % 256 + 256 * ofBytesLE ((List.range k).map (fun i => (n / 256) / 256 ^ i % 256)) := by
      simp [ofBytesLE]
    rw [hstep, ih (n / 256)]
    have := Nat.mod_mul (a := 256) (b := 256 ^ k) (x := n)
    rw [Nat.pow_succ, Nat.mul_comm (256 ^ k) 256]
    omega

/-- C6: the event payload is the concatenation, in list order, of records
`(8-byte little-endian u64 length, entry bytes)`, and the envelope carries
type `ProtoBuf`, the local member id and service `"habitat-sup"`. The length
prefix has 8 bytes and decodes to the entry's length mod `2^64`. -/
theorem event_envelope_framing (member_id : String) (entries : List (List Nat)) :
    build_event_envelope member_id entries =
      { field_type := EventEnvelope_Type.ProtoBuf,
        payload :=
          (entries.map (fun bytes => write_u64_le bytes.length ++ bytes)).flatten,
        member_id := member_id,
        service := "habitat-sup" }
  ∧ (∀ bytes ∈ entries, (write_u64_le bytes.length).length = 8
      ∧ ofBytesLE (write_u64_le bytes.length) = bytes.length % 2 ^ 64) := by
  constructor
  · rw [build_event_envelope, build_event_payload, build_event_payload_loop]
    rfl
  · intro bytes _
    refine ⟨by simp [write_u64_le], ?_⟩
    rw [write_u64_le, ofBytesLE_le_chunks 8 bytes.length]
    norm_num

/-- The `sup-eventsrv` worker thread (mod.rs 425-461): after connecting it
performs a single `event_rx.recv()`; the first received snapshot (a vector of
encoded census entries) is framed and sent as one envelope, after which the
closure returns — later snapshots on the channel are never received. The
input is the sequence of snapshots the Manager sends during the run; the
output is the list of envelopes transmitted to the collectors. -/
def sup_eventsrv_worker (member_id : String) (received : List (List (List Nat))) :
    List EventEnvelope :=
  match received with
  | [] => []
  | census_entries :: _ => [build_event_envelope member_id census_entries]

/-- C3 (failing-input evaluation): when the Manager sends two snapshots, the
source worker transmits a single envelope — the one for the first snapshot —
instead of one envelope per snapshot as the specification mandates. -/
theorem sup_eventsrv_worker_single_recv :
    sup_eventsrv_worker "m1" [[[1, 0]], [[2, 0]]] =
      [build_event_envelope "m1" [[1, 0]]]
  ∧ (sup_eventsrv_worker "m1" [[[1, 0]], [[2, 0]]]).length = 1 :=
  ⟨rfl, rfl⟩

/- ### Builder-scheduler dispatcher handlers
(src/components/builder-scheduler/src/server/handlers.rs)

The protocol messages, the package graph, the datastore and the schedule
client are external collaborators (protocol/hab-net crates and
`super::ServerState`); they are embedded as abstract functions in a
`ServerState` record. A handler's observable behaviour is the list of replies
sent on the socket, the list of datastore/scheduler effects, and its
`Result<()>` value (socket sends themselves are assumed to succeed). -/

/-- `ErrCode` of the shared net protocol (the handlers only produce
`ENTITY_NOT_FOUND`). -/
inductive ErrCode where
  | ENTITY_NOT_FOUND
  | BUG
deriving DecidableEq

/-- A `net::NetError` reply envelope: an error code plus its stable code
string (`net::err(code, msg)`). -/
structure NetError where
  code : ErrCode
  msg : String
deriving DecidableEq

/-- `net::err` (hab-net): build an error envelope. -/
def net_err (code : ErrCode) (msg : String) : NetError :=
  { code := code, msg := msg }

namespace proto

/-- `proto::GroupState` of the scheduler protocol. -/
inductive GroupState where
  | Pending
  | Dispatching
  | Complete
  | Failed
deriving DecidableEq

/-- `proto::GroupCreate`: origin, package name, and the `deps_only` flag. -/
structure GroupCreate where
  origin : String
  package : String
  deps_only : Bool
deriving DecidableEq

/-- `proto::GroupGet`: the queried group id. -/
structure GroupGet where
  group_id : Nat
deriving DecidableEq

/-- `proto::Group`: id, state and project list (projects are
`(name, ident)` pairs as produced by the graph). -/
structure Group where
  id : Nat
  state : GroupState
  projects : List (String × String)
deriving DecidableEq

/-- `proto::PackageStatsGet`: the queried origin. -/
structure PackageStatsGet where
  origin : String
deriving DecidableEq

/-- `proto::PackageStats`: opaque statistics record. -/
structure PackageStats where
  plans : Nat
  builds : Nat
deriving DecidableEq

end proto

/-- A reply sent with `req.reply_complete` by one of the handlers. -/
inductive Reply where
  | group (g : proto.Group)
  | packageStats (ps : proto.PackageStats)
  | netError (e : NetError)
deriving DecidableEq

/-- Mutating effects a handler triggers on its collaborators:
`datastore().create_group` and `schedule_cli().notify_work`. -/
inductive SchedEffect where
  | createGroup (msg : proto.GroupCreate) (projects : List (String × String))
  | notifyWork
deriving DecidableEq

/-- The `ServerState` collaborators as abstract functions: `graph.resolve`,
`graph.rdeps`, `datastore().get_group`, `datastore().create_group`,
`datastore().get_package_stats`, `schedule_cli().notify_work`. Errors of the
external crates are abstracted to strings. -/
structure ServerState where
  graph_resolve : String → Option String
  graph_rdeps : String → Option (List (String × String))
  datastore_get_group : proto.GroupGet → Except String (Option proto.Group)
  datastore_create_group : proto.GroupCreate → List (String × String) → Except String proto.Group
  datastore_get_package_stats : proto.PackageStatsGet → Except String proto.PackageStats
  notify_work : Except String Unit

/-- `group_create` (handlers.rs 27-104): resolve `origin/package` in the
graph (`ENTITY_NOT_FOUND` envelope and `Ok(())` when it does not resolve);
collect the root project (unless `deps_only`) plus the reverse dependencies;
an empty project set replies `proto.Group{id: 0, state: Complete}` without touching
the datastore or the scheduler; otherwise create the group, notify the
scheduler of new work and reply with the created group. -/
def group_create (state : ServerState) (msg : proto.GroupCreate) :
    List Reply × List SchedEffect × Except String Unit :=
  let project_name := msg.origin ++ "/" ++ msg.package
  match state.graph_resolve project_name with
  | none => ([Reply.netError (net_err ErrCode.ENTITY_NOT_FOUND "sc:group-create:1")],
      [], Except.ok ())
  | some project_ident =>
    let projects :=
      (if msg.deps_only then [] else [(project_name, project_ident)]) ++
        (match state.graph_rdeps project_ident with
         | some rdeps => rdeps
         | none => [])
    if projects.isEmpty then
      ([Reply.group { id := 0, state := proto.GroupState.Complete, projects := [] }],
        [], Except.ok ())
    else
      match state.datastore_create_group msg projects with
      | Except.error e => ([], [SchedEffect.createGroup msg projects], Except.error e)
      | Except.ok new_group =>
        match state.notify_work with
        | Except.error e =>
          ([], [SchedEffect.createGroup msg projects, SchedEffect.notifyWork],
            Except.error e)
        | Except.ok _ =>
          ([Reply.group new_group],
            [SchedEffect.createGroup msg projects, SchedEffect.notifyWork],
            Except.ok ())

/-- `group_get` (handlers.rs 106-134): a datastore error is logged and
treated as "no group"; a found group is replied as-is, otherwise an
`ENTITY_NOT_FOUND` envelope; the handler itself returns `Ok(())`. -/
def group_get (state : ServerState) (msg : proto.GroupGet) :
    List Reply × List SchedEffect × Except String Unit :=
  let group_opt :=
    match state.datastore_get_group msg with
    | Except.ok group_opt => group_opt
    | Except.error _ => none
  match group_opt with
  | some group => ([Reply.group group], [], Except.ok ())
  | none => ([Reply.netError (net_err ErrCode.ENTITY_NOT_FOUND "sc:schedule-get:1")],
      [], Except.ok ())

/-- `package_stats_get` (handlers.rs 162-181): reply the stats on success,
an `ENTITY_NOT_FOUND` envelope when retrieval fails; returns `Ok(())` either
way. -/
def package_stats_get (state : ServerState) (msg : proto.PackageStatsGet) :
    List Reply × List SchedEffect × Except String Unit :=
  match state.datastore_get_package_stats msg with
  | Except.ok package_stats => ([Reply.packageStats package_stats], [], Except.ok ())
  | Except.error _ =>
    ([Reply.netError (net_err ErrCode.ENTITY_NOT_FOUND "sc:package-stats-get:1")],
      [], Except.ok ())

/-- C8: each dispatcher handler that cannot find its entity replies with an
`ENTITY_NOT_FOUND` error envelope carrying its stable code string
(`sc:group-create:1`, `sc:schedule-get:1`, `sc:package-stats-get:1`) and
returns `Ok(())` instead of propagating an error. -/
theorem handlers_entity_not_found (state : ServerState) (gc : proto.GroupCreate)
    (gg : proto.GroupGet) (ps : proto.PackageStatsGet) :
    (state.graph_resolve (gc.origin ++ "/" ++ gc.package) = none →
      group_create state gc =
        ([Reply.netError (net_err ErrCode.ENTITY_NOT_FOUND "sc:group-create:1")],
          [], Except.ok ()))
  ∧ (state.datastore_get_group gg = Except.ok none →
      group_get state gg =
        ([Reply.netError (net_err ErrCode.ENTITY_NOT_FOUND "sc:schedule-get:1")],
          [], Except.ok ()))
  ∧ (∀ e, state.datastore_get_group gg = Except.error e →
      group_get state gg =
        ([Reply.netError (net_err ErrCode.ENTITY_NOT_FOUND "sc:schedule-get:1")],
          [], Except.ok ()))
  ∧ (∀ e, state.datastore_get_package_stats ps = Except.error e →
      package_stats_get state ps =
        ([Reply.netError (net_err ErrCode.ENTITY_NOT_FOUND "sc:package-stats-get:1")],
          [], Except.ok ())) := by
  refine ⟨?_, ?_, ?_, ?_⟩
  · intro hres
    rw [group_create]
    rw [hres]
  · intro hget
    rw [group_get]
    rw [hget]
  · intro e hget
    rw [group_get]
    rw [hget]
  · intro e hget
    rw [package_stats_get, hget]

/-- A sample `ServerState` for the handler witnesses: the graph resolves
only `core/hab`, it has no reverse dependencies, the datastore has no group
and no stats. -/
def sampleServerState : ServerState :=
  { graph_resolve := fun n => if n = "core/hab" then some "core/hab/1.0.0" else none,
    graph_rdeps := fun _ => none,
    datastore_get_group := fun _ => Except.ok none,
    datastore_create_group := fun _ projects =>
      Except.ok { id := 42, state := proto.GroupState.Pending, projects := projects },
    datastore_get_package_stats := fun _ => Except.error "no stats",
    notify_work := Except.ok () }

/-- Witness for C8: the three not-found paths at concrete messages against
`sampleServerState`. -/
theorem handlers_entity_not_found_witness :
    group_create sampleServerState { origin := "core", package := "nope", deps_only := false } =
      ([Reply.netError (net_err ErrCode.ENTITY_NOT_FOUND "sc:group-create:1")],
        [], Except.ok ())
  ∧ group_get sampleServerState { group_id := 9 } =
      ([Reply.netError (net_err ErrCode.ENTITY_NOT_FOUND "sc:schedule-get:1")],
        [], Except.ok ())
  ∧ package_stats_get sampleServerState { origin := "core" } =
      ([Reply.netError (net_err ErrCode.ENTITY_NOT_FOUND "sc:package-stats-get:1")],
        [], Except.ok ()) :=
  ⟨(handlers_entity_not_found sampleServerState
      { origin := "core", package := "nope", deps_only := false }
      { group_id := 9 } { origin := "core" }).1 (by decide),
   (handlers_entity_not_found sampleServerState
      { origin := "core", package := "nope", deps_only := false }
      { group_id := 9 } { origin := "core" }).2.1 rfl,
   (handlers_entity_not_found sampleServerState
      { origin := "core", package := "nope", deps_only := false }
      { group_id := 9 } { origin := "core" }).2.2.2 "no stats" rfl⟩

/-- C10: when the project set is empty — `deps_only` requested and the
resolved package has no reverse dependencies — `group_create` replies with a
`proto.Group` whose id is 0 and whose state is `Complete`, creates nothing in the
datastore and does not notify the scheduler (no effects). -/
theorem group_create_empty_projects (state : ServerState) (msg : proto.GroupCreate)
    (project_ident : String) :
    state.graph_resolve (msg.origin ++ "/" ++ msg.package) = some project_ident →
    msg.deps_only = true →
    (state.graph_rdeps project_ident = none ∨
      state.graph_rdeps project_ident = some []) →
    group_create state msg =
      ([Reply.group { id := 0, state := proto.GroupState.Complete, projects := [] }],
        [], Except.ok ()) := by
  intro hres hdeps hrdeps
  rw [group_create, hres]
  rcases hrdeps with hrd | hrd <;>
    simp [hrd, hdeps]

/-- Witness for C10: `deps_only` create for `core/hab` (which resolves and
has no reverse dependencies) against `sampleServerState`. -/
theorem group_create_empty_projects_witness :
    group_create sampleServerState { origin := "core", package := "hab", deps_only := true } =
      ([Reply.group { id := 0, state := proto.GroupState.Complete, projects := [] }],
        [], Except.ok ()) :=
  group_create_empty_projects sampleServerState
    { origin := "core", package := "hab", deps_only := true }
    "core/hab/1.0.0" (by decide) rfl (Or.inl rfl)
